import Mathlib

/-!
Verification of the web-ext core against its specification.

The development shallowly embeds two source modules:

* `src/unnamed/part_000` (file-filter.js): the `isSubPath` predicate and the
  `FileFilter` class built on the `multimatch`/`minimatch` glob matcher.
* `src/lib/extension-runners/firefox-desktop.js`: the
  `FirefoxDesktopExtensionRunner` lifecycle (run, reload, cleanup, exit).

Modelling conventions:

* Resolved absolute filesystem paths are modelled as the list of their
  segments (the parts between the separators of the already-resolved path),
  e.g. `/proj/src/a.js` becomes `["proj", "src", "a.js"]`.  Segments of
  resolved paths are assumed not to be `""`, `"."` or `".."` and to contain
  no separator character, which is what `path.resolve` guarantees.
* Glob patterns are modelled pre-split into segments as well; only the
  pattern segment shapes that actually occur in the source are represented
  (literals, `*`, `*<suffix>` such as `*.xpi`, `.*`, and the globstar `**`).
* The asynchronous collaborator calls (remote protocol session, process
  handle) are modelled as deterministic oracles supplied to each operation,
  and the JavaScript exception channel is modelled with explicit
  `Option`/outcome values.  Side-effect traces (which addon ids were passed
  to `reloadAddon`, which source dirs reached `installTemporaryAddon`, which
  cleanup callbacks were invoked) are returned explicitly so that the
  theorems can speak about calls that must or must not happen.
-/

/-! ### Path model: node path.relative and isSubPath (file-filter.js) -/

/-- Drops the longest shared leading run of two segment lists and returns the
two remainders.  This is the common-prefix computation inside node
`path.relative` (both arguments are already-resolved absolute paths). -/
def dropShared : List String → List String → List String × List String
  | a :: as, b :: bs => if a = b then dropShared as bs else (a :: as, b :: bs)
  | as, bs => (as, bs)

/-- Node `path.relative(CWD-resolved from, CWD-resolved to)` over segment
lists: one `".."` per segment remaining on the `from` side, followed by the
remaining `to` segments. -/
def pathRelative (fromP toP : List String) : List String :=
  let rem := dropShared fromP toP
  List.replicate rem.1.length ".." ++ rem.2

/-- Whether the segment-joined relative path starts with the string
`"../"`.  For segment lists produced by `pathRelative` (whose segments
contain no separator) this holds exactly when the first segment is literally
`".."` and at least one further segment follows. -/
def relHasParentHead : List String → Bool
  | ".." :: _ :: _ => true
  | _ => false

/-- Model of `isSubPath(src, target)` from file-filter.js: the relative path
from `src` to `target` is nonempty, is not exactly `".."`, and does not start
with `"../"`. -/
def isSubPath (src target : List String) : Bool :=
  let relate := pathRelative src target
  if relate = [] then false
  else if relate = [".."] then false
  else !(relHasParentHead relate)

/-! ### Glob model: the minimatch segment matcher as used by multimatch -/

/-- Tests whether the first list is an initial segment of the second. -/
def isInitSeg : List Char → List Char → Bool
  | [], _ => true
  | _ :: _, [] => false
  | a :: as, b :: bs => a == b && isInitSeg as bs

/-- Whether a path or pattern segment begins with a literal dot. -/
def hasDotInit (s : String) : Bool :=
  match s.data with
  | c :: _ => c == '.'
  | [] => false

/-- Whether the string `s` ends with the string `e`. -/
def strEndsIn (s e : String) : Bool :=
  isInitSeg e.data.reverse s.data.reverse

/-- One segment of a glob pattern, covering exactly the shapes occurring in
file-filter.js: a literal segment, `*`, `*<suffix>` (such as `*.xpi`), `.*`,
and the globstar `**`. -/
inductive GlobSeg where
  | lit (s : String)
  | star
  | starExt (ending : String)
  | dotStar
  | globstar
deriving Repr, DecidableEq

/-- Minimatch semantics of one non-globstar pattern segment against one path
segment, with the default `dot:false` option: a segment pattern whose first
piece is `*` refuses names beginning with a dot, while the `.*` pattern
requires a leading dot.  The globstar case never arises here (it is handled
by `globMatch`). -/
def segMatch : GlobSeg → String → Bool
  | .lit s, t => t == s
  | .star, t => !hasDotInit t
  | .starExt e, t => !hasDotInit t && strEndsIn t e
  | .dotStar, t => hasDotInit t
  | .globstar, _ => false

/-- Candidate remainders a globstar may leave: the list itself, and every
suffix reachable by swallowing leading segments none of which begins with a
dot (minimatch stops scanning at the first dot segment). -/
def globTails : List String → List (List String)
  | [] => [[]]
  | t :: ts => (t :: ts) :: (if hasDotInit t then [] else globTails ts)

/-- Minimatch full-segment-list matching (default options): literal and
starred segments match one path segment each, a globstar matches any number
of non-dot segments (including zero). -/
def globMatch : List GlobSeg → List String → Bool
  | [], [] => true
  | [], _ :: _ => false
  | .globstar :: ps, ts => (globTails ts).any (fun rest => globMatch ps rest)
  | _ :: _, [] => false
  | p :: ps, t :: ts => segMatch p t && globMatch ps ts

/-- One entry of FileFilter.filesToIgnore: a resolved glob and whether it was
stored with a leading `!` (a negated, re-including pattern). -/
structure IgnoreEntry where
  negated : Bool
  segs : List GlobSeg
deriving Repr, DecidableEq

/-- Multimatch membership of a single path in the result of matching against
an ordered pattern list: a fold that, per pattern, unions the matches of a
positive pattern into the result and subtracts the matches of a negated
pattern, so that the last matching pattern decides. -/
def multimatchHit (p : List String) (pats : List IgnoreEntry) : Bool :=
  pats.foldl (fun acc pat => if globMatch pat.segs p then !pat.negated else acc)
    false

/-! ### FileFilter (file-filter.js) -/

/-- Input pattern before resolution, as handed to `addToIgnoreList`: whether
it carries a leading `!`, whether the glob is an absolute path, and its
segments.  The leading `!` is stripped before resolution and re-attached
afterwards, exactly as in the source. -/
structure RawPattern where
  negated : Bool
  absolute : Bool
  segs : List GlobSeg
deriving Repr, DecidableEq

/-- Node `path.resolve(sourceDir, pattern)` on a glob string: an absolute
input is returned unchanged, a relative one is anchored under the source
directory. -/
def resolveGlob (sourceDir : List String) (rp : RawPattern) : List GlobSeg :=
  if rp.absolute then rp.segs else sourceDir.map GlobSeg.lit ++ rp.segs

/-- File path input to `wantFile`, either already absolute or relative (to be
resolved against the source directory). -/
inductive InputPath where
  | abs (segs : List String)
  | rel (segs : List String)
deriving Repr, DecidableEq

/-- Model of `resolveWithSourceDir` for file paths. -/
def resolveWithSourceDir (sourceDir : List String) : InputPath → List String
  | .abs segs => segs
  | .rel segs => sourceDir ++ segs

/-- State of a constructed FileFilter. -/
structure FileFilter where
  sourceDir : List String
  filesToIgnore : List IgnoreEntry
deriving Repr, DecidableEq

/-- Model of `FileFilter.addToIgnoreList`: each input pattern is resolved
against the source directory (negation stripped first and re-attached) and
pushed onto `filesToIgnore` in order. -/
def addToIgnoreList (f : FileFilter) (files : List RawPattern) : FileFilter :=
  { f with
    filesToIgnore :=
      f.filesToIgnore ++
        files.map (fun rp => ⟨rp.negated, resolveGlob f.sourceDir rp⟩) }

/-- Default baseIgnoredPatterns of the FileFilter constructor, pre-split:
the six patterns are, in order, the globs
written in the source as star-star slash star-dot-xpi, star-star slash
star-dot-zip, star-star slash dot-star, star-star slash dot-star slash
star-star slash star, star-star slash node_modules, and star-star slash
node_modules slash star-star slash star. -/
def baseIgnoredPatternsDefault : List RawPattern :=
  [⟨false, false, [.globstar, .starExt ".xpi"]⟩,
   ⟨false, false, [.globstar, .starExt ".zip"]⟩,
   ⟨false, false, [.globstar, .dotStar]⟩,
   ⟨false, false, [.globstar, .dotStar, .globstar, .star]⟩,
   ⟨false, false, [.globstar, .lit "node_modules"]⟩,
   ⟨false, false, [.globstar, .lit "node_modules", .globstar, .star]⟩]

/-- Constructor parameters of FileFilter.  The source directory and the
optional artifacts directory are given as resolved absolute segment lists. -/
structure FileFilterParams where
  baseIgnoredPatterns : List RawPattern := baseIgnoredPatternsDefault
  ignoreFiles : List RawPattern := []
  sourceDir : List String
  artifactsDir : Option (List String) := none

/-- Model of the FileFilter constructor: adds the base patterns, then the
ignore files (a JavaScript array is always truthy, so this branch always
runs), and finally — only when the artifacts directory is a strict sub-path
of the source directory — the artifacts directory itself and the glob
covering everything beneath it (`path.join(artifactsDir, "**", "*")`). -/
def mkFileFilter (ps : FileFilterParams) : FileFilter :=
  let f : FileFilter := ⟨ps.sourceDir, []⟩
  let f := addToIgnoreList f ps.baseIgnoredPatterns
  let f := addToIgnoreList f ps.ignoreFiles
  match ps.artifactsDir with
  | some a =>
    if isSubPath ps.sourceDir a then
      addToIgnoreList f
        [⟨false, true, a.map GlobSeg.lit⟩,
         ⟨false, true, a.map GlobSeg.lit ++ [.globstar, .star]⟩]
    else f
  | none => f

/-- Model of `FileFilter.wantFile`: resolve the candidate path against the
source directory and return true exactly when no pattern of the accumulated
ignore list matches it net of negations. -/
def FileFilter.wantFile (f : FileFilter) (filePath : InputPath) : Bool :=
  let resolvedPath := resolveWithSourceDir f.sourceDir filePath
  !(multimatchHit resolvedPath f.filesToIgnore)

/-! ### Errors (src/lib/errors.js, as used by firefox-desktop.js) -/

/-- Error values thrown or collected by the runner.  All constructors model
instances of the JavaScript `Error` class. -/
inductive JsError where
  | webExtError (message : String)
  | remoteTempInstallNotSupported (message : String)
  | multiExtensionsReloadError (errorsMap : List (String × JsError))
  | otherError (message : String)

/-! ### Runner model (firefox-desktop.js) -/

/-- Truthiness test of an optional JavaScript string: `undefined` and the
empty string are falsy. -/
def jsFalsy : Option String → Bool
  | none => true
  | some s => s == ""

/-- JavaScript `Map.set` on an association list: an existing key keeps its
position and gets the new value, a new key is appended. -/
def mapSet {α : Type} (m : List (String × α)) (k : String) (v : α) :
    List (String × α) :=
  match m with
  | [] => [(k, v)]
  | (k', v') :: rest =>
    if k' = k then (k, v) :: rest else (k', v') :: mapSet rest k v

/-- JavaScript `Map.get` on an association list (`none` is `undefined`). -/
def mapGet {α : Type} (m : List (String × α)) (k : String) : Option α :=
  match m with
  | [] => none
  | (k', v) :: rest => if k' = k then some v else mapGet rest k

/-- JavaScript `Set.add`: appends unless the element is already present. -/
def setAdd (s : List Nat) (x : Nat) : List Nat :=
  if x ∈ s then s else s ++ [x]

/-- One configured extension (its manifest data plays no role here). -/
structure Extension where
  sourceDir : String

/-- The runner parameters that the modelled code paths consult. -/
structure RunnerParams where
  extensions : List Extension
  preInstall : Bool

/-- Result of `firefoxApp.run`: the process handle may be absent. -/
structure RunningInfo where
  firefox : Option Nat

/-- Mutable state of a FirefoxDesktopExtensionRunner instance.  Cleanup
callbacks are identified by numbers; the set keeps insertion order. -/
structure RunnerState where
  reloadableExtensions : List (String × String)
  cleanupCallbacks : List Nat
  runningInfo : Option RunningInfo
  profile : Option Unit

/-- State produced by the constructor: empty map, empty set, nothing run. -/
def RunnerState.initial : RunnerState :=
  { reloadableExtensions := [], cleanupCallbacks := [], runningInfo := none,
    profile := none }

/-- Outcome of one `remoteFirefox.installTemporaryAddon` call: either the
promise resolves with `installResult.addon.id` (which may be absent or
empty), or it rejects with an error. -/
inductive InstallAttemptResult where
  | resolved (addonId : Option String)
  | rejected (error : JsError)

/-- Deterministic behavior of the external collaborators during one run:
the result of `firefoxApp.run`, the remote-protocol install result per
source directory, and the `reloadAddon` outcome per addon id (`some e`
models a rejection). -/
structure CollaboratorBehavior where
  runningInfo : RunningInfo
  installTemporaryAddon : String → InstallAttemptResult
  reloadAddon : String → Option JsError

/-- Display name returned by `getName`. -/
def runnerGetName : String := "Firefox Desktop"

/-- Model of `registerCleanup`: adds the callback to the cleanup set. -/
def registerCleanup (st : RunnerState) (fn : Nat) : RunnerState :=
  { st with cleanupCallbacks := setAdd st.cleanupCallbacks fn }

/-- Model of the process-close observer registered by
`startFirefoxInstance`: iterates the cleanup set, invoking every callback
inside a try/catch so that a raising callback is logged and the iteration
continues.  Returns the invocation order and the ids whose invocation was
caught raising (the logged ones); the observer itself never propagates an
error, which the model reflects by being a total function into these two
lists. -/
def runCloseObserver (throws : Nat → Bool) : List Nat → List Nat × List Nat
  | [] => ([], [])
  | cb :: rest =>
    let next := runCloseObserver throws rest
    (cb :: next.1, (if throws cb then [cb] else []) ++ next.2)

/-- Outcome of `exit()`: either the thrown error or the process handle that
received the kill signal. -/
inductive ExitOutcome where
  | threw (error : JsError)
  | killed (processHandle : Nat)

/-- Model of `exit()`: throws unless a running-info with a process handle is
present, otherwise kills that process.  Returns the state afterwards (the
method assigns nothing) and the list of cleanup callbacks it invoked itself
(the body invokes none: cleanup is driven only by the close observer). -/
def runnerExit (st : RunnerState) : ExitOutcome × RunnerState × List Nat :=
  match st.runningInfo with
  | none => (.threw (.webExtError "No firefox instance is currently running"),
             st, [])
  | some ri =>
    match ri.firefox with
    | none => (.threw (.webExtError "No firefox instance is currently running"),
               st, [])
    | some procHandle => (.killed procHandle, st, [])

/-- Model of `setupProfileDir`: creates or clones a profile and, when
`preInstall` is set, proxy-installs every configured extension via
`firefoxApp.installExtension`.  Neither branch touches
`reloadableExtensions` or `runningInfo`; the returned trace lists the
proxy-installed source directories. -/
def setupProfileDir (params : RunnerParams) (st : RunnerState) :
    RunnerState × List String :=
  ({ st with profile := some () },
   if params.preInstall then params.extensions.map (·.sourceDir) else [])

/-- Message of the error produced when a temporary install resolves without
a usable addon id. -/
def missingAddonIdMessage : String :=
  "Unexpected missing addonId in the installAsTemporaryAddon result"

/-- Message the runner substitutes for a RemoteTempInstallNotSupported
rejection. -/
def tempInstallNotSupportedMessage : String :=
  "Temporary add-on installation is not supported in this version" ++
  " of Firefox (you need Firefox 49 or higher). For older Firefox" ++
  " versions, use --pre-install"

/-- Model of the temporary-addon install loop of `startFirefoxInstance`:
for each extension in order, call `installTemporaryAddon`; a resolved call
with a falsy addon id raises the missing-addonId error, a
RemoteTempInstallNotSupported rejection is rewritten into a guidance error,
any other rejection propagates as-is; on success the source directory is
mapped to the addon id and the loop continues.  Returns the state after the
loop, the error that aborted it (if any), and the source directories for
which an install was attempted. -/
def installTemporaryAddons (beh : CollaboratorBehavior) :
    List Extension → RunnerState → RunnerState × Option JsError × List String
  | [], st => (st, none, [])
  | ext :: rest, st =>
    match beh.installTemporaryAddon ext.sourceDir with
    | .rejected e =>
      match e with
      | .remoteTempInstallNotSupported _ =>
        (st, some (.webExtError tempInstallNotSupportedMessage),
         [ext.sourceDir])
      | _ => (st, some e, [ext.sourceDir])
    | .resolved addonId =>
      if jsFalsy addonId then
        (st, some (.webExtError missingAddonIdMessage), [ext.sourceDir])
      else
        let st' := { st with
          reloadableExtensions :=
            mapSet st.reloadableExtensions ext.sourceDir (addonId.getD "") }
        let next := installTemporaryAddons beh rest st'
        (next.1, next.2.1, ext.sourceDir :: next.2.2)

/-- Model of `startFirefoxInstance`: launches the process (recording the
running info and installing the close observer) and, unless `preInstall`
was used, connects the remote client and runs the temporary-install loop. -/
def startFirefoxInstance (params : RunnerParams) (beh : CollaboratorBehavior)
    (st : RunnerState) : RunnerState × Option JsError × List String :=
  let st := { st with runningInfo := some beh.runningInfo }
  if params.preInstall then (st, none, [])
  else installTemporaryAddons beh params.extensions st

/-- Model of `run()`: `setupProfileDir` followed by `startFirefoxInstance`.
Returns the final state, the error aborting the sequence (if any), and the
source directories for which a temporary install was attempted. -/
def runnerRun (params : RunnerParams) (beh : CollaboratorBehavior)
    (st : RunnerState) : RunnerState × Option JsError × List String :=
  let afterProfile := setupProfileDir params st
  startFirefoxInstance params beh afterProfile.1

/-- One element of the result array of the reload operations. -/
structure ReloadResult where
  runnerName : String
  sourceDir : Option String
  reloadError : Option JsError

/-- Core of `reloadExtensionBySourceDir`, producing the single result
object together with the list of addon ids passed to
`remoteFirefox.reloadAddon` (empty when the extension is not tracked, so
the protocol session is never consulted).  A rejection of `reloadAddon` is
captured in the `reloadError` field; the function is total, so no error is
ever propagated. -/
def reloadBySourceDirCore (beh : CollaboratorBehavior) (st : RunnerState)
    (extensionSourceDir : String) : ReloadResult × List String :=
  let addonId := mapGet st.reloadableExtensions extensionSourceDir
  if jsFalsy addonId then
    ({ runnerName := runnerGetName, sourceDir := some extensionSourceDir,
       reloadError := some (.webExtError
         ("Extension not reloadable: no addonId has been mapped to \"" ++
          extensionSourceDir ++ "\"")) }, [])
  else
    let aid := addonId.getD ""
    match beh.reloadAddon aid with
    | some error =>
      ({ runnerName := runnerGetName, sourceDir := some extensionSourceDir,
         reloadError := some error }, [aid])
    | none =>
      ({ runnerName := runnerGetName, sourceDir := some extensionSourceDir,
         reloadError := none }, [aid])

/-- Model of `reloadExtensionBySourceDir`: wraps the single result object
in the one-element array the source returns. -/
def reloadExtensionBySourceDir (beh : CollaboratorBehavior)
    (st : RunnerState) (extensionSourceDir : String) :
    List ReloadResult × List String :=
  let core := reloadBySourceDirCore beh st extensionSourceDir
  ([core.1], core.2)

/-- One iteration of the reloadAllExtensions loop on the error Map: the
single result of reloading the given extension is inspected and, when its
reloadError field holds an error, recorded under the source directory. -/
def reloadStepMap (beh : CollaboratorBehavior) (st : RunnerState)
    (m : List (String × JsError)) (ext : Extension) :
    List (String × JsError) :=
  match (reloadBySourceDirCore beh st ext.sourceDir).1.reloadError with
  | some e => mapSet m ext.sourceDir e
  | none => m

/-- Model of `reloadAllExtensions`: reloads every configured extension in
configuration order, collecting each failing reload into a Map keyed by
source directory; returns the single aggregate result plus the source
directories for which a reload was attempted, accumulated per loop
iteration. -/
def reloadAllExtensions (beh : CollaboratorBehavior)
    (params : RunnerParams) (st : RunnerState) :
    List ReloadResult × List String :=
  let looped := params.extensions.foldl
    (fun acc ext => (reloadStepMap beh st acc.1 ext, acc.2 ++ [ext.sourceDir]))
    ([], [])
  if looped.1.isEmpty then
    ([{ runnerName := runnerGetName, sourceDir := none, reloadError := none }],
     looped.2)
  else
    ([{ runnerName := runnerGetName, sourceDir := none,
        reloadError := some (.multiExtensionsReloadError looped.1) }],
     looped.2)

/-- Reload outcome the collaborator behavior induces for one source
directory in a given state (the reloadError field of the single result). -/
def reloadErrFor (beh : CollaboratorBehavior) (st : RunnerState)
    (d : String) : Option JsError :=
  (reloadBySourceDirCore beh st d).1.reloadError

/-- Specification-side characterization used by the C1 theorem: the source
directories of the longest leading run of extensions whose temporary
install resolves with a usable addon id (installation aborts at the first
failure, so exactly these directories complete successfully). -/
def successfulInstallDirs (beh : CollaboratorBehavior) :
    List Extension → List String
  | [] => []
  | ext :: rest =>
    match beh.installTemporaryAddon ext.sourceDir with
    | .resolved addonId =>
      if jsFalsy addonId then []
      else ext.sourceDir :: successfulInstallDirs beh rest
    | .rejected _ => []

theorem dropShared_same (D : List String) : dropShared D D = ([], []) := by
  induction D with
  | nil => rfl
  | cons a as ih => simp [dropShared, ih]

theorem dropShared_self_append (D x : List String) :
    dropShared D (D ++ x) = ([], x) := by
  induction D with
  | nil => cases x <;> rfl
  | cons a as ih => simp [dropShared, ih]

theorem dropShared_dropLast (D : List String) (hD : D ≠ []) :
    ∃ a, dropShared D D.dropLast = ([a], []) := by
  induction D with
  | nil => exact absurd rfl hD
  | cons a as ih =>
    cases as with
    | nil => exact ⟨a, rfl⟩
    | cons b bs =>
      rw [List.dropLast_cons_of_ne_nil (by simp)]
      simpa [dropShared] using ih (by simp)

theorem pathRelative_self (D : List String) : pathRelative D D = [] := by
  simp [pathRelative, dropShared_same]

theorem pathRelative_append (D x : List String) :
    pathRelative D (D ++ x) = x := by
  simp [pathRelative, dropShared_self_append]

theorem dropShared_dropLast_eq (D : List String) (hD : D ≠ []) :
    pathRelative D D.dropLast = [".."] := by
  obtain ⟨a, ha⟩ := dropShared_dropLast D hD
  simp [pathRelative, ha]

/-- Claim C7: the sub-path predicate is irreflexive (`isSubPath D D` is
false), rejects the parent of `D`, rejects any target whose relative path
from `D` begins with a parent-traversal segment, and accepts `D/x` for any
nonempty continuation `x` (whose leading segment, coming from a resolved
path, is not itself a parent-traversal segment). -/
theorem isSubPath_spec (D t x : List String) (hx : x ≠ [])
    (hxh : x.head? ≠ some "..") :
    isSubPath D D = false ∧
    isSubPath D D.dropLast = false ∧
    (∀ rest, pathRelative D t = ".." :: rest → isSubPath D t = false) ∧
    isSubPath D (D ++ x) = true := by
  refine ⟨?_, ?_, ?_, ?_⟩
  · simp [isSubPath, pathRelative_self]
  · by_cases hD : D = []
    · subst hD; simp [isSubPath, pathRelative_self]
    · simp [isSubPath, dropShared_dropLast_eq D hD]
  · intro rest hrel
    cases rest with
    | nil => simp [isSubPath, hrel]
    | cons r rs => simp [isSubPath, hrel, relHasParentHead]
  · cases x with
    | nil => exact absurd rfl hx
    | cons h tl =>
      have hh : h ≠ ".." := by
        intro hcontra
        exact hxh (by simp [hcontra])
      rw [isSubPath, pathRelative_append]
      simp only [if_neg (by simp : ¬(h :: tl = []))]
      rw [if_neg]
      · cases tl with
        | nil => simp [relHasParentHead, hh]
        | cons b bs =>
          simp only [relHasParentHead]
          split
          · rename_i heq
            simp at heq
            exact absurd heq.1 hh
          · rfl
      · intro hcontra
        rw [List.cons_eq_cons] at hcontra
        exact hh hcontra.1

/-- Witness for C7 at a concrete directory, sibling target and child. -/
theorem isSubPath_spec_witness :
    isSubPath ["home", "u", "proj"] ["home", "u", "proj"] = false ∧
    isSubPath ["home", "u", "proj"] (["home", "u", "proj"].dropLast) = false ∧
    (∀ rest, pathRelative ["home", "u", "proj"] ["etc"] = ".." :: rest →
      isSubPath ["home", "u", "proj"] ["etc"] = false) ∧
    isSubPath ["home", "u", "proj"] (["home", "u", "proj"] ++ ["sub"]) = true :=
  isSubPath_spec ["home", "u", "proj"] ["etc"] ["sub"] (by decide) (by decide)

theorem runCloseObserver_trace (throws : Nat → Bool) (cbs : List Nat) :
    (runCloseObserver throws cbs).1 = cbs := by
  induction cbs with
  | nil => rfl
  | cons cb rest ih => simp [runCloseObserver, ih]

theorem runCloseObserver_logs (throws : Nat → Bool) (cbs : List Nat) :
    (runCloseObserver throws cbs).2 = cbs.filter throws := by
  induction cbs with
  | nil => rfl
  | cons cb rest ih =>
    by_cases h : throws cb <;> simp [runCloseObserver, ih, List.filter, h]

theorem mem_setAdd (s : List Nat) (x y : Nat) :
    y ∈ setAdd s x ↔ y ∈ s ∨ y = x := by
  by_cases h : x ∈ s
  · simp only [setAdd, if_pos h]
    constructor
    · exact Or.inl
    · rintro (hy | rfl)
      · exact hy
      · exact h
  · simp [setAdd, if_neg h]

theorem nodup_setAdd (s : List Nat) (x : Nat) (h : s.Nodup) :
    (setAdd s x).Nodup := by
  by_cases hx : x ∈ s
  · simpa [setAdd, if_pos hx] using h
  · simp only [setAdd, if_neg hx]
    simpa [List.nodup_append] using ⟨h, fun hmem => hx hmem⟩

theorem nodup_foldl_setAdd (regs : List Nat) :
    ∀ acc : List Nat, acc.Nodup → (regs.foldl setAdd acc).Nodup := by
  induction regs with
  | nil => intro acc h; exact h
  | cons r rest ih =>
    intro acc h
    exact ih (setAdd acc r) (nodup_setAdd acc r h)

theorem mem_foldl_setAdd (regs : List Nat) (y : Nat) :
    ∀ acc : List Nat, (y ∈ regs.foldl setAdd acc ↔ y ∈ acc ∨ y ∈ regs) := by
  induction regs with
  | nil => intro acc; simp
  | cons r rest ih =>
    intro acc
    rw [List.foldl_cons, ih (setAdd acc r), mem_setAdd]
    constructor
    · rintro ((hy | rfl) | hy)
      · exact Or.inl hy
      · exact Or.inr (by simp)
      · exact Or.inr (by simp [hy])
    · rintro (hy | hy)
      · exact Or.inl (Or.inl hy)
      · rcases List.mem_cons.mp hy with rfl | hy
        · exact Or.inl (Or.inr rfl)
        · exact Or.inr hy

theorem foldl_setAdd_of_nodup (regs : List Nat) :
    ∀ acc : List Nat, (acc ++ regs).Nodup → regs.foldl setAdd acc = acc ++ regs := by
  induction regs with
  | nil => intro acc _; simp
  | cons r rest ih =>
    intro acc h
    have hr : r ∉ acc := by
      intro hmem
      have := (List.nodup_append.mp h).2.2
      exact this hmem (by simp)
    rw [List.foldl_cons, setAdd, if_neg hr, ih (acc ++ [r]) (by simpa using h)]
    simp

/-- Claim C4: when the process-close observer fires with callback set built
from distinct registrations, every registered callback is invoked exactly
once, in registration order, for every raising behavior of the callbacks;
each raising callback is logged individually and the observer propagates
nothing (it is a total function into its traces). -/
theorem closeObserver_spec (regs : List Nat) (throws : Nat → Bool)
    (h : regs.Nodup) :
    (runCloseObserver throws (regs.foldl setAdd [])).1 = regs ∧
    (∀ c ∈ regs,
      (runCloseObserver throws (regs.foldl setAdd [])).1.count c = 1) ∧
    (runCloseObserver throws (regs.foldl setAdd [])).2 = regs.filter throws := by
  have hfold : regs.foldl setAdd [] = regs :=
    foldl_setAdd_of_nodup regs [] (by simpa using h)
  refine ⟨by rw [runCloseObserver_trace, hfold], ?_, ?_⟩
  · intro c hc
    rw [runCloseObserver_trace, hfold]
    exact List.count_eq_one_of_mem h hc
  · rw [runCloseObserver_logs, hfold]

/-- Witness for C4: three registered callbacks of which the second raises;
all three run, in order, and only the second is logged. -/
theorem closeObserver_spec_witness :
    (runCloseObserver (· == 1) ([10, 1, 7].foldl setAdd [])).1 = [10, 1, 7] ∧
    (∀ c ∈ [10, 1, 7],
      (runCloseObserver (· == 1) ([10, 1, 7].foldl setAdd [])).1.count c = 1) ∧
    (runCloseObserver (· == 1) ([10, 1, 7].foldl setAdd [])).2 =
      [10, 1, 7].filter (· == 1) :=
  closeObserver_spec [10, 1, 7] (· == 1) (by decide)

/-- Claim C5: registerCleanup is idempotent by callback identity — adding
the same callback twice leaves the runner state exactly as adding it once,
and a callback registered any number of times among the registrations runs
exactly once when the close observer fires. -/
theorem registerCleanup_idempotent (st : RunnerState) (f : Nat)
    (regs : List Nat) (throws : Nat → Bool) (hf : f ∈ regs) :
    registerCleanup (registerCleanup st f) f = registerCleanup st f ∧
    (runCloseObserver throws (regs.foldl setAdd [])).1.count f = 1 := by
  constructor
  · have hidem : setAdd (setAdd st.cleanupCallbacks f) f =
        setAdd st.cleanupCallbacks f := by
      by_cases hx : f ∈ st.cleanupCallbacks <;> simp [setAdd, hx]
    simp [registerCleanup, hidem]
  · rw [runCloseObserver_trace]
    exact List.count_eq_one_of_mem
      (nodup_foldl_setAdd regs [] (by simp))
      ((mem_foldl_setAdd regs f []).mpr (Or.inr hf))

/-- Witness for C5: the callback 4 registered twice runs exactly once. -/
theorem registerCleanup_idempotent_witness :
    registerCleanup (registerCleanup RunnerState.initial 4) 4 =
      registerCleanup RunnerState.initial 4 ∧
    (runCloseObserver (fun _ => false) ([4, 4].foldl setAdd [])).1.count 4 = 1 :=
  registerCleanup_idempotent RunnerState.initial 4 [4, 4] (fun _ => false)
    (by decide)

theorem installTemporaryAddons_runningInfo (beh : CollaboratorBehavior)
    (exts : List Extension) : ∀ st : RunnerState,
    (installTemporaryAddons beh exts st).1.runningInfo = st.runningInfo := by
  induction exts with
  | nil => intro st; rfl
  | cons e rest ih =>
    intro st
    simp only [installTemporaryAddons]
    cases h : beh.installTemporaryAddon e.sourceDir with
    | rejected err => cases err <;> simp
    | resolved addonId =>
      by_cases hf : jsFalsy addonId
      · simp [hf]
      · simp [hf, ih]

theorem runnerRun_runningInfo (params : RunnerParams)
    (beh : CollaboratorBehavior) (st₀ : RunnerState) :
    (runnerRun params beh st₀).1.runningInfo = some beh.runningInfo := by
  simp only [runnerRun, startFirefoxInstance, setupProfileDir]
  by_cases h : params.preInstall
  · simp [h]
  · simp [h, installTemporaryAddons_runningInfo]

/-- Claim C6: exit() throws the no-instance error when no process was ever
launched (running info absent) or when the process handle is absent, in
both cases leaving the state unchanged and invoking no cleanup callback;
after a successful run() it kills the tracked process, again without
invoking any cleanup callback itself. -/
theorem runnerExit_spec (st st₀ : RunnerState) (params : RunnerParams)
    (beh : CollaboratorBehavior) (p : Nat)
    (hnone : st.runningInfo = none ∨
      ∃ ri, st.runningInfo = some ri ∧ ri.firefox = none)
    (_hrun : (runnerRun params beh st₀).2.1 = none)
    (hproc : beh.runningInfo.firefox = some p) :
    runnerExit st =
      (.threw (.webExtError "No firefox instance is currently running"),
       st, []) ∧
    runnerExit (runnerRun params beh st₀).1 =
      (.killed p, (runnerRun params beh st₀).1, []) := by
  constructor
  · rcases hnone with h | ⟨ri, h1, h2⟩
    · simp [runnerExit, h]
    · simp [runnerExit, h1, h2]
  · have hri := runnerRun_runningInfo params beh st₀
    simp [runnerExit, hri, hproc]

/-- Witness for C6: a never-run state throws; a state produced by a
successful run kills the launched process (handle 99). -/
theorem runnerExit_spec_witness :
    runnerExit RunnerState.initial =
      (.threw (.webExtError "No firefox instance is currently running"),
       RunnerState.initial, []) ∧
    runnerExit (runnerRun ⟨[], false⟩
        ⟨⟨some 99⟩, fun _ => .rejected (.otherError "down"), fun _ => none⟩
        RunnerState.initial).1 =
      (.killed 99, (runnerRun ⟨[], false⟩
        ⟨⟨some 99⟩, fun _ => .rejected (.otherError "down"), fun _ => none⟩
        RunnerState.initial).1, []) :=
  runnerExit_spec RunnerState.initial RunnerState.initial ⟨[], false⟩
    ⟨⟨some 99⟩, fun _ => .rejected (.otherError "down"), fun _ => none⟩
    99 (Or.inl rfl) rfl rfl

theorem mapGet_mapSet {α : Type} (m : List (String × α)) (k q : String)
    (v : α) :
    mapGet (mapSet m k v) q = if q = k then some v else mapGet m q := by
  induction m with
  | nil =>
    simp only [mapSet, mapGet]
    by_cases h : q = k
    · subst h; simp
    · rw [if_neg (fun hh => h hh.symm), if_neg h]
  | cons kv rest ih =>
    obtain ⟨k', v'⟩ := kv
    simp only [mapSet]
    by_cases hk : k' = k
    · subst hk
      simp only [if_pos rfl, mapGet]
      by_cases hq : q = k'
      · subst hq; simp
      · rw [if_neg (fun hh => hq hh.symm), if_neg hq,
          if_neg (fun hh => hq hh.symm)]
    · simp only [if_neg hk, mapGet]
      by_cases hq : k' = q
      · subst hq
        rw [if_pos rfl, if_neg hk, if_pos rfl]
      · rw [if_neg hq, ih]
        by_cases hqk : q = k
        · simp [hqk]
        · simp [hqk, hq]

/-- Whether the collaborator behavior makes the temporary install of one
extension complete successfully (resolve with a truthy addon id). -/
def installOk (beh : CollaboratorBehavior) (ext : Extension) : Prop :=
  ∃ addonId, beh.installTemporaryAddon ext.sourceDir = .resolved addonId ∧
    jsFalsy addonId = false

theorem installLoop_keys (beh : CollaboratorBehavior) (exts : List Extension) :
    ∀ (st : RunnerState) (d : String),
    (mapGet (installTemporaryAddons beh exts st).1.reloadableExtensions d
      ≠ none) ↔
    (mapGet st.reloadableExtensions d ≠ none ∨
      d ∈ successfulInstallDirs beh exts) := by
  induction exts with
  | nil => intro st d; simp [installTemporaryAddons, successfulInstallDirs]
  | cons e rest ih =>
    intro st d
    simp only [installTemporaryAddons, successfulInstallDirs]
    cases h : beh.installTemporaryAddon e.sourceDir with
    | rejected err => cases err <;> simp
    | resolved addonId =>
      by_cases hf : jsFalsy addonId
      · simp [hf]
      · simp only [hf, Bool.false_eq_true, if_false, if_neg]
        rw [ih]
        simp only [mapGet_mapSet]
        by_cases hd : d = e.sourceDir
        · subst hd; simp
        · simp [hd]

/-- Claim C1: starting from a fresh runner, a source directory is a key of
reloadableExtensions after run() exactly when the run used the
temporary-install path (preInstall false) and the temporary install for
that directory completed successfully over the remote session; with
preInstall true no key is ever added, and a directory whose install fails
(or aborts before being reached) is not added. -/
theorem reloadableExtensions_key_iff (params : RunnerParams)
    (beh : CollaboratorBehavior) (d : String) :
    (mapGet (runnerRun params beh
        RunnerState.initial).1.reloadableExtensions d ≠ none) ↔
    (params.preInstall = false ∧
      d ∈ successfulInstallDirs beh params.extensions) := by
  simp only [runnerRun, startFirefoxInstance, setupProfileDir]
  by_cases h : params.preInstall
  · simp [h, RunnerState.initial, mapGet]
  · simp only [h, Bool.false_eq_true, if_false]
    rw [installLoop_keys]
    simp [RunnerState.initial, mapGet, h]

theorem successfulInstallDirs_append_fail (beh : CollaboratorBehavior)
    (pre post : List Extension) (e : Extension)
    (hpre : ∀ ext ∈ pre, installOk beh ext)
    (he : ∃ addonId, beh.installTemporaryAddon e.sourceDir =
      .resolved addonId ∧ jsFalsy addonId = true) :
    successfulInstallDirs beh (pre ++ e :: post) = pre.map (·.sourceDir) := by
  induction pre with
  | nil =>
    obtain ⟨addonId, hres, hfalsy⟩ := he
    simp [successfulInstallDirs, hres, hfalsy]
  | cons p pre' ih =>
    obtain ⟨addonId, hres, hok⟩ := hpre p (by simp)
    simp only [List.cons_append, successfulInstallDirs, hres, hok,
      Bool.false_eq_true, if_false, List.map_cons, List.append_eq]
    rw [ih (fun ext hmem => hpre ext (by simp [hmem]))]

theorem installLoop_fail_outputs (beh : CollaboratorBehavior)
    (pre post : List Extension) (e : Extension)
    (hpre : ∀ ext ∈ pre, installOk beh ext)
    (he : ∃ addonId, beh.installTemporaryAddon e.sourceDir =
      .resolved addonId ∧ jsFalsy addonId = true) :
    ∀ st : RunnerState,
    (installTemporaryAddons beh (pre ++ e :: post) st).2 =
      (some (.webExtError missingAddonIdMessage),
       pre.map (·.sourceDir) ++ [e.sourceDir]) := by
  induction pre with
  | nil =>
    intro st
    obtain ⟨addonId, hres, hfalsy⟩ := he
    simp [installTemporaryAddons, hres, hfalsy]
  | cons p pre' ih =>
    intro st
    obtain ⟨addonId, hres, hok⟩ := hpre p (by simp)
    simp only [List.cons_append, installTemporaryAddons, hres, hok,
      Bool.false_eq_true, if_false, List.map_cons, List.cons_append,
      List.append_eq]
    rw [ih (fun ext hmem => hpre ext (by simp [hmem]))]

/-- Claim C10: when, during a run with preInstall false, every extension
before position i installs successfully and the install for the extension
at position i resolves with an absent or empty addon id, run() fails with
the unexpected-missing-addonId error, that source directory gains no
reloadableExtensions key, the extensions after it are never attempted, and
exactly the earlier successful directories are tracked. -/
theorem missingAddonId_spec (params : RunnerParams)
    (beh : CollaboratorBehavior) (pre post : List Extension) (e : Extension)
    (hpre : ∀ ext ∈ pre, installOk beh ext)
    (he : ∃ addonId, beh.installTemporaryAddon e.sourceDir =
      .resolved addonId ∧ jsFalsy addonId = true)
    (hexts : params.extensions = pre ++ e :: post)
    (hpi : params.preInstall = false) :
    (runnerRun params beh RunnerState.initial).2.1 =
      some (.webExtError missingAddonIdMessage) ∧
    mapGet (runnerRun params beh
      RunnerState.initial).1.reloadableExtensions e.sourceDir = none ∧
    (runnerRun params beh RunnerState.initial).2.2 =
      pre.map (·.sourceDir) ++ [e.sourceDir] ∧
    (∀ d, mapGet (runnerRun params beh
        RunnerState.initial).1.reloadableExtensions d ≠ none ↔
      d ∈ pre.map (·.sourceDir)) := by
  have hsucc := successfulInstallDirs_append_fail beh pre post e hpre he
  have hkeys : ∀ d, mapGet (runnerRun params beh
      RunnerState.initial).1.reloadableExtensions d ≠ none ↔
      d ∈ pre.map (·.sourceDir) := by
    intro d
    simp only [runnerRun, startFirefoxInstance, setupProfileDir, hpi,
      Bool.false_eq_true, if_false, hexts]
    rw [installLoop_keys]
    simp [RunnerState.initial, mapGet, hsucc]
  have houts : (runnerRun params beh RunnerState.initial).2 =
      (some (.webExtError missingAddonIdMessage),
       pre.map (·.sourceDir) ++ [e.sourceDir]) := by
    simp only [runnerRun, startFirefoxInstance, setupProfileDir, hpi,
      Bool.false_eq_true, if_false, hexts]
    exact installLoop_fail_outputs beh pre post e hpre he _
  refine ⟨by rw [houts], ?_, by rw [houts], hkeys⟩
  cases hget : mapGet (runnerRun params beh
      RunnerState.initial).1.reloadableExtensions e.sourceDir with
  | none => rfl
  | some v =>
    exfalso
    have hmem : e.sourceDir ∈ pre.map (·.sourceDir) :=
      (hkeys e.sourceDir).mp (by simp [hget])
    obtain ⟨ext, hext, hdir⟩ := List.mem_map.mp hmem
    obtain ⟨id1, hres1, hok1⟩ := hpre ext hext
    obtain ⟨id2, hres2, hfalsy2⟩ := he
    rw [hdir] at hres1
    rw [hres1] at hres2
    cases hres2
    rw [hok1] at hfalsy2
    exact Bool.false_ne_true hfalsy2

/-- Witness for C10: extension "a" installs with id "id-a", extension "b"
resolves with an empty addon id, extension "c" follows; the run aborts with
the missing-addonId error after attempting exactly "a" then "b", and only
"a" is tracked. -/
theorem missingAddonId_spec_witness :
    (runnerRun ⟨[⟨"a"⟩, ⟨"b"⟩, ⟨"c"⟩], false⟩
        ⟨⟨some 7⟩,
         fun d => if d = "b" then .resolved (some "") else
           .resolved (some ("id-" ++ d)),
         fun _ => none⟩ RunnerState.initial).2.1 =
      some (.webExtError missingAddonIdMessage) ∧
    mapGet (runnerRun ⟨[⟨"a"⟩, ⟨"b"⟩, ⟨"c"⟩], false⟩
        ⟨⟨some 7⟩,
         fun d => if d = "b" then .resolved (some "") else
           .resolved (some ("id-" ++ d)),
         fun _ => none⟩ RunnerState.initial).1.reloadableExtensions "b" =
      none ∧
    (runnerRun ⟨[⟨"a"⟩, ⟨"b"⟩, ⟨"c"⟩], false⟩
        ⟨⟨some 7⟩,
         fun d => if d = "b" then .resolved (some "") else
           .resolved (some ("id-" ++ d)),
         fun _ => none⟩ RunnerState.initial).2.2 =
      ([⟨"a"⟩] : List Extension).map (·.sourceDir) ++ ["b"] ∧
    (∀ d, mapGet (runnerRun ⟨[⟨"a"⟩, ⟨"b"⟩, ⟨"c"⟩], false⟩
        ⟨⟨some 7⟩,
         fun d => if d = "b" then .resolved (some "") else
           .resolved (some ("id-" ++ d)),
         fun _ => none⟩ RunnerState.initial).1.reloadableExtensions d ≠
        none ↔ d ∈ ([⟨"a"⟩] : List Extension).map (·.sourceDir)) :=
  missingAddonId_spec ⟨[⟨"a"⟩, ⟨"b"⟩, ⟨"c"⟩], false⟩
    ⟨⟨some 7⟩,
     fun d => if d = "b" then .resolved (some "") else
       .resolved (some ("id-" ++ d)),
     fun _ => none⟩
    [⟨"a"⟩] [⟨"c"⟩] ⟨"b"⟩
    (by
      intro ext hmem
      simp only [List.mem_singleton] at hmem
      subst hmem
      exact ⟨some "id-a", by simp [jsFalsy]⟩)
    ⟨some "", by simp [jsFalsy]⟩
    rfl rfl

theorem reloadLoop_split (beh : CollaboratorBehavior) (st : RunnerState)
    (exts : List Extension) :
    ∀ (m0 : List (String × JsError)) (t0 : List String),
    exts.foldl
      (fun acc ext =>
        (reloadStepMap beh st acc.1 ext, acc.2 ++ [ext.sourceDir]))
      (m0, t0) =
    (exts.foldl (reloadStepMap beh st) m0, t0 ++ exts.map (·.sourceDir)) := by
  induction exts with
  | nil => intro m0 t0; simp
  | cons e rest ih =>
    intro m0 t0
    simp [ih, List.foldl_cons]

theorem mapSet_ne_nil {α : Type} (m : List (String × α)) (k : String)
    (v : α) : mapSet m k v ≠ [] := by
  cases m with
  | nil => simp [mapSet]
  | cons kv rest =>
    obtain ⟨k', v'⟩ := kv
    by_cases h : k' = k <;> simp [mapSet, h]

theorem reloadStepMap_fold_ne_nil (beh : CollaboratorBehavior)
    (st : RunnerState) (exts : List Extension) :
    ∀ m0, m0 ≠ [] → exts.foldl (reloadStepMap beh st) m0 ≠ [] := by
  induction exts with
  | nil => intro m0 h; exact h
  | cons e rest ih =>
    intro m0 h
    rw [List.foldl_cons]
    refine ih _ ?_
    unfold reloadStepMap
    cases (reloadBySourceDirCore beh st e.sourceDir).1.reloadError with
    | none => exact h
    | some err => exact mapSet_ne_nil m0 e.sourceDir err

theorem reloadStepMap_fold_nil_iff (beh : CollaboratorBehavior)
    (st : RunnerState) (exts : List Extension) :
    exts.foldl (reloadStepMap beh st) [] = [] ↔
    ∀ ext ∈ exts, reloadErrFor beh st ext.sourceDir = none := by
  induction exts with
  | nil => simp
  | cons e rest ih =>
    rw [List.foldl_cons]
    cases herr : (reloadBySourceDirCore beh st e.sourceDir).1.reloadError with
    | none =>
      have hstep : reloadStepMap beh st [] e = [] := by
        unfold reloadStepMap; rw [herr]
      rw [hstep, ih]
      simp [List.forall_mem_cons, reloadErrFor, herr]
    | some err =>
      have hstep : reloadStepMap beh st [] e = mapSet [] e.sourceDir err := by
        unfold reloadStepMap; rw [herr]
      rw [hstep]
      constructor
      · intro hfold
        exact absurd hfold
          (reloadStepMap_fold_ne_nil beh st rest _
            (mapSet_ne_nil [] e.sourceDir err))
      · intro hall
        have := hall e (by simp)
        rw [reloadErrFor, herr] at this
        cases this

theorem reloadStepMap_fold_get (beh : CollaboratorBehavior)
    (st : RunnerState) (exts : List Extension) :
    ∀ (m0 : List (String × JsError)) (d : String),
    mapGet (exts.foldl (reloadStepMap beh st) m0) d =
      if d ∈ exts.map (·.sourceDir) ∧ (reloadErrFor beh st d).isSome
      then reloadErrFor beh st d
      else mapGet m0 d := by
  induction exts with
  | nil => intro m0 d; simp
  | cons e rest ih =>
    intro m0 d
    rw [List.foldl_cons, ih]
    have hstep : ∀ m, mapGet (reloadStepMap beh st m e) d =
        if d = e.sourceDir ∧ (reloadErrFor beh st e.sourceDir).isSome
        then reloadErrFor beh st e.sourceDir
        else mapGet m d := by
      intro m
      unfold reloadStepMap
      cases herr :
          (reloadBySourceDirCore beh st e.sourceDir).1.reloadError with
      | none => simp [reloadErrFor, herr]
      | some err =>
        rw [mapGet_mapSet]
        by_cases hd : d = e.sourceDir
        · simp [hd, reloadErrFor, herr]
        · simp [hd, reloadErrFor, herr]
    by_cases hmemrest : d ∈ rest.map (·.sourceDir) ∧
        (reloadErrFor beh st d).isSome
    · rw [if_pos hmemrest, if_pos ⟨by simp [hmemrest.1], hmemrest.2⟩]
    · rw [if_neg hmemrest, hstep]
      by_cases hd : d = e.sourceDir
      · by_cases hsome : (reloadErrFor beh st d).isSome
        · rw [if_pos ⟨hd, by rw [← hd]; exact hsome⟩,
            if_pos ⟨by simp [hd], hsome⟩, ← hd]
        · rw [if_neg (fun h => hsome (by rw [hd]; exact h.2)),
            if_neg (fun h => hsome h.2)]
      · rw [if_neg (fun h => hd h.1), if_neg]
        intro h
        rcases h with ⟨hmem, hsome⟩
        rw [List.map_cons, List.mem_cons] at hmem
        rcases hmem with hcase | hcase
        · exact hd hcase
        · exact hmemrest ⟨hcase, hsome⟩

/-- Claim C2: reloadAllExtensions attempts a reload for every configured
source directory in configuration order; when no per-extension reload
fails it returns the single success entry, and when at least one fails it
returns a single entry whose error is the aggregate
MultiExtensionsReloadError whose mapping contains exactly the failing
source directories, each mapped to its underlying error. -/
theorem reloadAllExtensions_spec (beh : CollaboratorBehavior)
    (params : RunnerParams) (st : RunnerState) :
    (reloadAllExtensions beh params st).2 =
      params.extensions.map (·.sourceDir) ∧
    ((∀ ext ∈ params.extensions,
        reloadErrFor beh st ext.sourceDir = none) →
      (reloadAllExtensions beh params st).1 =
        [{ runnerName := runnerGetName, sourceDir := none,
           reloadError := none }]) ∧
    ((∃ ext ∈ params.extensions,
        reloadErrFor beh st ext.sourceDir ≠ none) →
      ∃ em, (reloadAllExtensions beh params st).1 =
        [{ runnerName := runnerGetName, sourceDir := none,
           reloadError := some (.multiExtensionsReloadError em) }] ∧
        ∀ d, mapGet em d =
          if d ∈ params.extensions.map (·.sourceDir)
          then reloadErrFor beh st d else none) := by
  have hsplit := reloadLoop_split beh st params.extensions [] []
  refine ⟨?_, ?_, ?_⟩
  · rw [reloadAllExtensions, hsplit]
    by_cases h : (params.extensions.foldl (reloadStepMap beh st) []).isEmpty
    all_goals simp [h]
  · intro hall
    have hnil : params.extensions.foldl (reloadStepMap beh st) [] = [] :=
      (reloadStepMap_fold_nil_iff beh st params.extensions).mpr hall
    rw [reloadAllExtensions, hsplit]
    simp [hnil]
  · intro hex
    have hnotnil : params.extensions.foldl (reloadStepMap beh st) [] ≠ [] := by
      intro hnil
      obtain ⟨ext, hmem, herr⟩ := hex
      exact herr
        ((reloadStepMap_fold_nil_iff beh st params.extensions).mp hnil
          ext hmem)
    refine ⟨params.extensions.foldl (reloadStepMap beh st) [], ?_, ?_⟩
    · rw [reloadAllExtensions, hsplit]
      simp [List.isEmpty_iff, hnotnil]
    · intro d
      rw [reloadStepMap_fold_get]
      by_cases hmem : d ∈ params.extensions.map (·.sourceDir)
      · cases herr : reloadErrFor beh st d with
        | none => simp [hmem, herr, mapGet]
        | some e2 => simp [hmem, herr]
      · simp [hmem, mapGet]

/-- Witness for C2: two extensions, the reload of "b" rejecting; the
attempt order is the configuration order, the all-success case returns the
bare success entry, and the mixed case aggregates exactly the failure of
"b". -/
theorem reloadAllExtensions_spec_witness :
    (reloadAllExtensions
      ⟨⟨some 7⟩, fun _ => .rejected (.otherError "unused"),
       fun aid => if aid = "id-b" then some (.otherError "boom") else none⟩
      ⟨[⟨"a"⟩, ⟨"b"⟩], false⟩
      { RunnerState.initial with
        reloadableExtensions := [("a", "id-a"), ("b", "id-b")] }).2 =
      ([⟨"a"⟩, ⟨"b"⟩] : List Extension).map (·.sourceDir) ∧
    ((∀ ext ∈ ([⟨"a"⟩, ⟨"b"⟩] : List Extension),
        reloadErrFor
          ⟨⟨some 7⟩, fun _ => .rejected (.otherError "unused"),
           fun aid => if aid = "id-b" then some (.otherError "boom") else none⟩
          { RunnerState.initial with
            reloadableExtensions := [("a", "id-a"), ("b", "id-b")] }
          ext.sourceDir = none) →
      (reloadAllExtensions
        ⟨⟨some 7⟩, fun _ => .rejected (.otherError "unused"),
         fun aid => if aid = "id-b" then some (.otherError "boom") else none⟩
        ⟨[⟨"a"⟩, ⟨"b"⟩], false⟩
        { RunnerState.initial with
          reloadableExtensions := [("a", "id-a"), ("b", "id-b")] }).1 =
        [{ runnerName := runnerGetName, sourceDir := none,
           reloadError := none }]) ∧
    ((∃ ext ∈ ([⟨"a"⟩, ⟨"b"⟩] : List Extension),
        reloadErrFor
          ⟨⟨some 7⟩, fun _ => .rejected (.otherError "unused"),
           fun aid => if aid = "id-b" then some (.otherError "boom") else none⟩
          { RunnerState.initial with
            reloadableExtensions := [("a", "id-a"), ("b", "id-b")] }
          ext.sourceDir ≠ none) →
      ∃ em, (reloadAllExtensions
        ⟨⟨some 7⟩, fun _ => .rejected (.otherError "unused"),
         fun aid => if aid = "id-b" then some (.otherError "boom") else none⟩
        ⟨[⟨"a"⟩, ⟨"b"⟩], false⟩
        { RunnerState.initial with
          reloadableExtensions := [("a", "id-a"), ("b", "id-b")] }).1 =
        [{ runnerName := runnerGetName, sourceDir := none,
           reloadError := some (.multiExtensionsReloadError em) }] ∧
        ∀ d, mapGet em d =
          if d ∈ ([⟨"a"⟩, ⟨"b"⟩] : List Extension).map (·.sourceDir)
          then reloadErrFor
            ⟨⟨some 7⟩, fun _ => .rejected (.otherError "unused"),
             fun aid => if aid = "id-b" then some (.otherError "boom")
               else none⟩
            { RunnerState.initial with
              reloadableExtensions := [("a", "id-a"), ("b", "id-b")] } d
          else none) :=
  reloadAllExtensions_spec
    ⟨⟨some 7⟩, fun _ => .rejected (.otherError "unused"),
     fun aid => if aid = "id-b" then some (.otherError "boom") else none⟩
    ⟨[⟨"a"⟩, ⟨"b"⟩], false⟩
    { RunnerState.initial with
      reloadableExtensions := [("a", "id-a"), ("b", "id-b")] }

/-- Claim C3: for a source directory with no recorded addon identifier,
reloadExtensionBySourceDir yields the single not-reloadable error result
and passes nothing to the protocol session (the reloadAddon call list is
empty); for a tracked directory whose reloadAddon rejects, the rejection is
captured in the reloadError field of the single returned result rather
than thrown. -/
theorem reloadBySourceDir_spec (beh : CollaboratorBehavior)
    (st : RunnerState) (dirU dirT aid : String) (e : JsError)
    (hu : jsFalsy (mapGet st.reloadableExtensions dirU) = true)
    (ht : mapGet st.reloadableExtensions dirT = some aid) (ha : aid ≠ "")
    (hr : beh.reloadAddon aid = some e) :
    reloadExtensionBySourceDir beh st dirU =
      ([{ runnerName := runnerGetName, sourceDir := some dirU,
          reloadError := some (.webExtError
            ("Extension not reloadable: no addonId has been mapped to \"" ++
             dirU ++ "\"")) }], []) ∧
    reloadExtensionBySourceDir beh st dirT =
      ([{ runnerName := runnerGetName, sourceDir := some dirT,
          reloadError := some e }], [aid]) := by
  constructor
  · simp [reloadExtensionBySourceDir, reloadBySourceDirCore, hu]
  · have haid : jsFalsy (some aid) = false := by
      simp [jsFalsy, ha]
    simp [reloadExtensionBySourceDir, reloadBySourceDirCore, ht, haid, hr]

/-- Witness for C3: directory "u" untracked, directory "t" tracked with
addon id "id-t" whose reload rejects. -/
theorem reloadBySourceDir_spec_witness :
    reloadExtensionBySourceDir
      ⟨⟨some 7⟩, fun _ => .rejected (.otherError "unused"),
       fun _ => some (.otherError "boom")⟩
      { RunnerState.initial with reloadableExtensions := [("t", "id-t")] }
      "u" =
      ([{ runnerName := runnerGetName, sourceDir := some "u",
          reloadError := some (.webExtError
            ("Extension not reloadable: no addonId has been mapped to \"" ++
             "u" ++ "\"")) }], []) ∧
    reloadExtensionBySourceDir
      ⟨⟨some 7⟩, fun _ => .rejected (.otherError "unused"),
       fun _ => some (.otherError "boom")⟩
      { RunnerState.initial with reloadableExtensions := [("t", "id-t")] }
      "t" =
      ([{ runnerName := runnerGetName, sourceDir := some "t",
          reloadError := some (.otherError "boom") }], ["id-t"]) :=
  reloadBySourceDir_spec
    ⟨⟨some 7⟩, fun _ => .rejected (.otherError "unused"),
     fun _ => some (.otherError "boom")⟩
    { RunnerState.initial with reloadableExtensions := [("t", "id-t")] }
    "u" "t" "id-t" (.otherError "boom") rfl rfl (by decide) rfl

theorem multimatchHit_append_single (p : List String) (l : List IgnoreEntry)
    (e : IgnoreEntry) :
    multimatchHit p (l ++ [e]) =
      if globMatch e.segs p then !e.negated else multimatchHit p l := by
  rw [multimatchHit, List.foldl_append]
  rfl

theorem multimatchHit_append_two (p : List String) (l : List IgnoreEntry)
    (e1 e2 : IgnoreEntry) :
    multimatchHit p (l ++ [e1, e2]) =
      if globMatch e2.segs p then !e2.negated
      else if globMatch e1.segs p then !e1.negated
      else multimatchHit p l := by
  have h : l ++ [e1, e2] = (l ++ [e1]) ++ [e2] := by simp
  rw [h, multimatchHit_append_single, multimatchHit_append_single]

theorem globMatch_lit_append (xs : List String) (ps : List GlobSeg)
    (ts : List String) :
    globMatch (xs.map GlobSeg.lit ++ ps) (xs ++ ts) = globMatch ps ts := by
  induction xs with
  | nil => simp
  | cons x xs ih => simp [globMatch, segMatch, ih]

theorem globMatch_lit_iff (xs : List String) :
    ∀ ts, globMatch (xs.map GlobSeg.lit) ts = true ↔ xs = ts := by
  induction xs with
  | nil =>
    intro ts
    cases ts <;> simp [globMatch]
  | cons x xs ih =>
    intro ts
    cases ts with
    | nil => simp [globMatch]
    | cons t ts' =>
      rw [List.map_cons,
        show globMatch (GlobSeg.lit x :: xs.map GlobSeg.lit) (t :: ts') =
          (segMatch (GlobSeg.lit x) t &&
            globMatch (xs.map GlobSeg.lit) ts') from rfl]
      simp only [segMatch, Bool.and_eq_true, beq_iff_eq, ih]
      constructor
      · rintro ⟨h1, h2⟩
        subst h1; subst h2; rfl
      · intro h
        injection h with h1 h2
        exact ⟨h1.symm, h2⟩

theorem globMatch_globstar_star_nonempty (ts : List String) (hne : ts ≠ [])
    (hdot : ∀ s ∈ ts, hasDotInit s = false) :
    globMatch [.globstar, .star] ts = true := by
  induction ts with
  | nil => exact absurd rfl hne
  | cons t ts' ih =>
    have ht : hasDotInit t = false := hdot t (by simp)
    cases ts' with
    | nil => simp [globMatch, globTails, segMatch, ht]
    | cons u us =>
      have hrec := ih (by simp) (fun s hs => hdot s (by simp [hs]))
      rw [globMatch] at hrec ⊢
      rw [globTails, if_neg (by simp [ht]), List.any_cons]
      rw [hrec]
      simp

theorem globMatch_trailing_globstar (ts : List String)
    (hdot : ∀ s ∈ ts, hasDotInit s = false) :
    globMatch [.globstar] ts = true := by
  induction ts with
  | nil => rfl
  | cons t ts' ih =>
    have ht : hasDotInit t = false := hdot t (by simp)
    have hrec := ih (fun s hs => hdot s (by simp [hs]))
    rw [globMatch] at hrec ⊢
    rw [globTails, if_neg (by simp [ht]), List.any_cons]
    rw [hrec]
    simp

theorem mkFileFilter_some_eq (base ign : List RawPattern) (s a : List String)
    (hsub : isSubPath s a = true) :
    mkFileFilter ⟨base, ign, s, some a⟩ =
      addToIgnoreList (mkFileFilter ⟨base, ign, s, none⟩)
        [⟨false, true, a.map GlobSeg.lit⟩,
         ⟨false, true, a.map GlobSeg.lit ++ [.globstar, .star]⟩] := by
  simp [mkFileFilter, hsub]

theorem mkFileFilter_some_not (base ign : List RawPattern)
    (s a2 : List String) (hnot : isSubPath s a2 = false) :
    mkFileFilter ⟨base, ign, s, some a2⟩ =
      mkFileFilter ⟨base, ign, s, none⟩ := by
  simp [mkFileFilter, hnot]

theorem mkFileFilter_some_filesToIgnore (base ign : List RawPattern)
    (s a : List String) (hsub : isSubPath s a = true) :
    (mkFileFilter ⟨base, ign, s, some a⟩).filesToIgnore =
      (mkFileFilter ⟨base, ign, s, none⟩).filesToIgnore ++
        [⟨false, a.map GlobSeg.lit⟩,
         ⟨false, a.map GlobSeg.lit ++ [.globstar, .star]⟩] := by
  rw [mkFileFilter_some_eq base ign s a hsub]
  simp [addToIgnoreList, resolveGlob]

theorem globMatch_globstar_star_nil :
    globMatch [GlobSeg.globstar, GlobSeg.star] [] = false := rfl

/-- Claim C8 (amended): with an artifacts directory that is strictly a
descendant of the source directory, wantFile is false for the artifacts
directory itself and for every path beneath it none of whose additional
segments begins with a dot (a hidden file nested inside a hidden directory
beneath it escapes all patterns and stays wanted — see the counterexample);
with a non-descendant artifacts directory the constructed filter is
exactly the one built without an artifacts directory, so wantFile agrees
on every path. -/
theorem fileFilter_artifacts_spec (base ign : List RawPattern)
    (s a a2 : List String) (hsub : isSubPath s a = true)
    (hnot : isSubPath s a2 = false) :
    (mkFileFilter ⟨base, ign, s, some a⟩).wantFile (.abs a) = false ∧
    (∀ rest, rest ≠ [] → (∀ seg ∈ rest, hasDotInit seg = false) →
      (mkFileFilter ⟨base, ign, s, some a⟩).wantFile
        (.abs (a ++ rest)) = false) ∧
    mkFileFilter ⟨base, ign, s, some a2⟩ =
      mkFileFilter ⟨base, ign, s, none⟩ ∧
    (∀ p, (mkFileFilter ⟨base, ign, s, some a2⟩).wantFile p =
      (mkFileFilter ⟨base, ign, s, none⟩).wantFile p) := by
  have hfti := mkFileFilter_some_filesToIgnore base ign s a hsub
  refine ⟨?_, ?_, mkFileFilter_some_not base ign s a2 hnot, ?_⟩
  · rw [FileFilter.wantFile]
    rw [show resolveWithSourceDir
        (mkFileFilter ⟨base, ign, s, some a⟩).sourceDir (.abs a) = a from rfl]
    rw [hfti, multimatchHit_append_two]
    have h2 : globMatch (a.map GlobSeg.lit ++
        [GlobSeg.globstar, GlobSeg.star]) a = false := by
      have := globMatch_lit_append a [GlobSeg.globstar, GlobSeg.star] []
      simpa [globMatch_globstar_star_nil] using this
    have h1 : globMatch (a.map GlobSeg.lit) a = true :=
      (globMatch_lit_iff a a).mpr rfl
    simp [h2, h1]
  · intro rest hne hdot
    rw [FileFilter.wantFile]
    rw [show resolveWithSourceDir
        (mkFileFilter ⟨base, ign, s, some a⟩).sourceDir
        (.abs (a ++ rest)) = a ++ rest from rfl]
    rw [hfti, multimatchHit_append_two]
    have h2 : globMatch (a.map GlobSeg.lit ++
        [GlobSeg.globstar, GlobSeg.star]) (a ++ rest) = true := by
      rw [globMatch_lit_append]
      exact globMatch_globstar_star_nonempty rest hne hdot
    simp [h2]
  · intro p
    rw [mkFileFilter_some_not base ign s a2 hnot]

/-- Witness for C8: source /proj with artifacts /proj/web-ext-artifacts
(a strict descendant) and, separately, the non-descendant /other. -/
theorem fileFilter_artifacts_spec_witness :
    (mkFileFilter ⟨baseIgnoredPatternsDefault, [], ["proj"],
      some ["proj", "web-ext-artifacts"]⟩).wantFile
      (.abs ["proj", "web-ext-artifacts"]) = false ∧
    (∀ rest, rest ≠ [] → (∀ seg ∈ rest, hasDotInit seg = false) →
      (mkFileFilter ⟨baseIgnoredPatternsDefault, [], ["proj"],
        some ["proj", "web-ext-artifacts"]⟩).wantFile
        (.abs (["proj", "web-ext-artifacts"] ++ rest)) = false) ∧
    mkFileFilter ⟨baseIgnoredPatternsDefault, [], ["proj"], some ["other"]⟩ =
      mkFileFilter ⟨baseIgnoredPatternsDefault, [], ["proj"], none⟩ ∧
    (∀ p, (mkFileFilter ⟨baseIgnoredPatternsDefault, [], ["proj"],
        some ["other"]⟩).wantFile p =
      (mkFileFilter ⟨baseIgnoredPatternsDefault, [], ["proj"],
        none⟩).wantFile p) :=
  fileFilter_artifacts_spec baseIgnoredPatternsDefault [] ["proj"]
    ["proj", "web-ext-artifacts"] ["other"] (by decide) (by decide)

/-- Counterexample for C8 as stated: with sourceDir /proj and artifactsDir
/proj/web-ext-artifacts (a strict descendant), the path
/proj/web-ext-artifacts/.a/.b lies strictly beneath the artifacts
directory, yet wantFile returns true for it: the artifacts glob and the
hidden-file base patterns all refuse to match a hidden file nested inside
a hidden directory, so the claim that every path beneath the artifacts
directory is excluded is false. -/
theorem fileFilter_artifacts_counterexample :
    isSubPath ["proj"] ["proj", "web-ext-artifacts"] = true ∧
    (mkFileFilter ⟨baseIgnoredPatternsDefault, [], ["proj"],
      some ["proj", "web-ext-artifacts"]⟩).wantFile
      (.abs (["proj", "web-ext-artifacts"] ++ [".a", ".b"])) = true := by
  constructor
  · rfl
  · rfl

/-- Ignore patterns of the C9 scenario: the relative glob src/dist/ with a
trailing globstar, followed by the negated relative pattern
!src/dist/keep.js. -/
def negListPatterns : List RawPattern :=
  [⟨false, false, [.lit "src", .lit "dist", .globstar]⟩,
   ⟨true, false, [.lit "src", .lit "dist", .lit "keep.js"]⟩]

theorem mkFileFilter_negList_filesToIgnore (base : List RawPattern)
    (srcDir : List String) :
    (mkFileFilter ⟨base, negListPatterns, srcDir, none⟩).filesToIgnore =
      (addToIgnoreList ⟨srcDir, []⟩ base).filesToIgnore ++
        [⟨false, srcDir.map GlobSeg.lit ++
           [.lit "src", .lit "dist", .globstar]⟩,
         ⟨true, srcDir.map GlobSeg.lit ++
           [.lit "src", .lit "dist", .lit "keep.js"]⟩] := by
  simp [mkFileFilter, negListPatterns, addToIgnoreList, resolveGlob]

/-- Claim C9 (amended): for the filter that excludes src/dist/** and then
re-includes !src/dist/keep.js, among the files under src/dist/ none of
whose segments begins with a dot, wantFile returns true exactly for
src/dist/keep.js; a hidden file nested inside a hidden directory under
src/dist/ escapes both the src/dist/** exclusion and the hidden-file base
patterns and is also wanted (see the counterexample), so the original
universal claim holds only on the dot-free paths. -/
theorem fileFilter_negation_spec (base : List RawPattern)
    (srcDir : List String) (rest : List String) (hne : rest ≠ [])
    (hdot : ∀ seg ∈ rest, hasDotInit seg = false) :
    (mkFileFilter ⟨base, negListPatterns, srcDir, none⟩).wantFile
      (.rel ("src" :: "dist" :: rest)) =
      decide (rest = ["keep.js"]) := by
  rw [FileFilter.wantFile]
  rw [show resolveWithSourceDir
      (mkFileFilter ⟨base, negListPatterns, srcDir, none⟩).sourceDir
      (.rel ("src" :: "dist" :: rest)) =
      srcDir ++ ("src" :: "dist" :: rest) from rfl]
  rw [mkFileFilter_negList_filesToIgnore, multimatchHit_append_two]
  have hNsegs : srcDir.map GlobSeg.lit ++
      [GlobSeg.lit "src", GlobSeg.lit "dist", GlobSeg.lit "keep.js"] =
      (srcDir ++ ["src", "dist", "keep.js"]).map GlobSeg.lit := by
    simp
  have hPsegs : srcDir.map GlobSeg.lit ++
      [GlobSeg.lit "src", GlobSeg.lit "dist", GlobSeg.globstar] =
      (srcDir ++ ["src", "dist"]).map GlobSeg.lit ++ [GlobSeg.globstar] := by
    simp
  have hp : srcDir ++ ("src" :: "dist" :: rest) =
      (srcDir ++ ["src", "dist"]) ++ rest := by
    simp
  by_cases hkeep : rest = ["keep.js"]
  · subst hkeep
    have hN : globMatch
        (srcDir.map GlobSeg.lit ++
          [GlobSeg.lit "src", GlobSeg.lit "dist", GlobSeg.lit "keep.js"])
        (srcDir ++ ("src" :: "dist" :: ["keep.js"])) = true := by
      rw [hNsegs]
      exact (globMatch_lit_iff _ _).mpr rfl
    simp [hN]
  · have hN : globMatch
        (srcDir.map GlobSeg.lit ++
          [GlobSeg.lit "src", GlobSeg.lit "dist", GlobSeg.lit "keep.js"])
        (srcDir ++ ("src" :: "dist" :: rest)) = false := by
      rw [hNsegs, Bool.eq_false_iff]
      intro hmatch
      have heq := (globMatch_lit_iff _ _).mp hmatch
      have := List.append_cancel_left heq
      simp at this
      exact hkeep this.symm
    have hP : globMatch
        (srcDir.map GlobSeg.lit ++
          [GlobSeg.lit "src", GlobSeg.lit "dist", GlobSeg.globstar])
        (srcDir ++ ("src" :: "dist" :: rest)) = true := by
      rw [hPsegs, hp, globMatch_lit_append]
      exact globMatch_trailing_globstar rest hdot
    simp [hN, hP, hkeep]

/-- Witness for C9: under source directory /proj, the re-included file
src/dist/keep.js is wanted. -/
theorem fileFilter_negation_spec_witness :
    (mkFileFilter ⟨baseIgnoredPatternsDefault, negListPatterns, ["proj"],
      none⟩).wantFile (.rel ("src" :: "dist" :: ["keep.js"])) =
      decide ((["keep.js"] : List String) = ["keep.js"]) :=
  fileFilter_negation_spec baseIgnoredPatternsDefault ["proj"] ["keep.js"]
    (by decide) (by decide)

/-- Counterexample for C9 as stated: src/dist/.a/.b is a file under
src/dist/ different from src/dist/keep.js, so the claim requires wantFile
to return false for it, but the filter wants it: the src/dist/** pattern
and the hidden-file base patterns all fail to match a hidden file nested
inside a hidden directory. -/
theorem fileFilter_negation_counterexample :
    ([".a", ".b"] : List String) ≠ ["keep.js"] ∧
    (mkFileFilter ⟨baseIgnoredPatternsDefault, negListPatterns, ["proj"],
      none⟩).wantFile (.rel ("src" :: "dist" :: [".a", ".b"])) = true := by
  constructor
  · decide
  · rfl
